import Mathlib

/-!
Shallow embedding of the `porter-stemmer` Rust library (src/lib.rs).

A word is a list of grapheme clusters; each grapheme is modelled as a
`String`, mirroring the Rust `Vec<&str>` of extended grapheme clusters.
Rust `Vec::truncate k` is `List.take k`, `Vec::push g` is `· ++ [g]`,
index assignment `word[i] = g` is `List.set i g`, slicing
`&word[..k]` is `List.take k`, and `Vec::ends_with s` is
`List.isSuffixOf s`.  Rust indexing `word[i]` (always in bounds at the
call sites of the source, which guard lengths first) is modelled by
`List.getD i ""` — the default `""` is classified as a consonant and is
never `"y"`, so out-of-range positions read as plain consonants.
-/

namespace Porter

/-- Rust `real_vowel`: a grapheme is a real vowel iff it is one of
a, e, i, o, u. -/
def real_vowel (grapheme : String) : Bool :=
  grapheme == "a" || grapheme == "e" || grapheme == "i" ||
  grapheme == "o" || grapheme == "u"

/-- Rust `real_consonant`: negation of `real_vowel`. -/
def real_consonant (grapheme : String) : Bool :=
  !real_vowel grapheme

/-- Rust `porter_vowel`: a position is a Porter vowel iff it holds a real
vowel, or it holds `"y"` at a nonzero index whose preceding grapheme is a
real consonant. -/
def porter_vowel (word : List String) (index : Nat) : Bool :=
  let grapheme := word.getD index ""
  if real_vowel grapheme then
    true
  else
    if index == 0 || grapheme != "y" then
      false
    else
      real_consonant (word.getD (index - 1) "")

/-- Rust `porter_consonant`: negation of `porter_vowel`. -/
def porter_consonant (word : List String) (index : Nat) : Bool :=
  !porter_vowel word index

/-- Rust `contains_porter_vowel`: some position of the word satisfies
`porter_vowel`. -/
def contains_porter_vowel (word : List String) : Bool :=
  (List.range word.length).any (fun index => porter_vowel word index)

/-- Rust `Vec::ends_with`: the given suffix pattern ends the word. -/
def endsWith (word suffix : List String) : Bool :=
  List.isSuffixOf suffix word

/-- Rust `ends_double_porters_consonant`: length above 2, last two
graphemes equal, and the last position is a Porter consonant. -/
def ends_double_porters_consonant (word : List String) : Bool :=
  let word_length := word.length
  if word_length > 2 then
    (word.getD (word_length - 1) "" == word.getD (word_length - 2) "") &&
      porter_consonant word (word_length - 1)
  else
    false

/-- Rust `ends_star_o`: length above 2, last grapheme not w/x/y, and the
last three positions classify consonant, vowel, consonant. -/
def ends_star_o (word : List String) : Bool :=
  let word_length := word.length
  if word_length > 2 then
    let last_grapheme := word.getD (word_length - 1) ""
    if last_grapheme == "w" || last_grapheme == "x" || last_grapheme == "y" then
      false
    else
      porter_consonant word (word_length - 1) &&
      porter_vowel word (word_length - 2) &&
      porter_consonant word (word_length - 3)
  else
    false

/-- One iteration of the scanning loop of Rust `measure`: given the
current (vowel-run state, transition count) pair and a position, update
the state and count the vowel-run to consonant-run transition if one
occurs at that position. -/
def measureStep (word : List String) (st : Bool × Nat) (index : Nat) :
    Bool × Nat :=
  let is_vowel_current := st.1
  let is_vowel := porter_vowel word index
  if !is_vowel_current && is_vowel then
    (true, st.2)
  else if is_vowel_current && !is_vowel then
    (false, st.2 + 1)
  else
    st

/-- Rust `measure`: 0 on the empty word; otherwise seeds the run state at
position 0 with `real_vowel` and scans positions 1 to len-1 (the Rust
`for index in 1..word_length` loop) with `porter_vowel`, counting
vowel-run to consonant-run transitions. -/
def measure (word : List String) : Nat :=
  if word.length = 0 then
    0
  else
    ((List.range' 1 (word.length - 1)).foldl (measureStep word)
      (real_vowel (word.getD 0 ""), 0)).2

/-- Rust `phase_one_a`: sses/ies drop two; ss unchanged; a bare trailing s
drops one; otherwise unchanged. -/
def phase_one_a (word : List String) : List String :=
  let word_length := word.length
  if endsWith word ["s", "s", "e", "s"] || endsWith word ["i", "e", "s"] then
    word.take (word_length - 2)
  else if endsWith word ["s", "s"] then
    word
  else if endsWith word ["s"] then
    word.take (word_length - 1)
  else
    word

/-- Rust `phase_one_b_substep`: at/bl/iz append "e"; else a doubled Porter
consonant ending not in l/s/z drops the final grapheme; else measure 1 and
the *o pattern append "e"; else unchanged. -/
def phase_one_b_substep (word : List String) : List String :=
  let word_length := word.length
  if endsWith word ["a", "t"] || endsWith word ["b", "l"] ||
      endsWith word ["i", "z"] then
    word ++ ["e"]
  else if ends_double_porters_consonant word &&
      !(endsWith word ["l"] || endsWith word ["s"] || endsWith word ["z"]) then
    word.take (word_length - 1)
  else if measure word == 1 && ends_star_o word then
    word ++ ["e"]
  else
    word

/-- Rust `phase_one_b`: eed drops the final d when the stem before it has
positive measure; ed and ing drop when the remaining stem contains a
Porter vowel, then run the substep; otherwise unchanged. -/
def phase_one_b (word : List String) : List String :=
  let word_length := word.length
  if endsWith word ["e", "e", "d"] then
    if measure (word.take (word_length - 3)) > 0 then
      word.take (word_length - 1)
    else
      word
  else if endsWith word ["e", "d"] then
    if contains_porter_vowel (word.take (word_length - 2)) then
      phase_one_b_substep (word.take (word_length - 2))
    else
      word
  else if endsWith word ["i", "n", "g"] then
    if contains_porter_vowel (word.take (word_length - 3)) then
      phase_one_b_substep (word.take (word_length - 3))
    else
      word
  else
    word

/-- Rust `phase_one_c`: when the word contains a Porter vowel and ends in
"y", replace the final grapheme with "i". -/
def phase_one_c (word : List String) : List String :=
  let word_length := word.length
  if contains_porter_vowel word && endsWith word ["y"] then
    word.set (word_length - 1) "i"
  else
    word

/-- Rust `phase_two`: the 20-entry ordered suffix table, each rule guarded
by positive measure of the stem before the matched suffix. -/
def phase_two (word : List String) : List String :=
  let word_length := word.length
  if endsWith word ["a", "t", "i", "o", "n", "a", "l"] &&
      measure (word.take (word_length - 7)) > 0 then
    word.take (word_length - 5) ++ ["e"]
  else if endsWith word ["t", "i", "o", "n", "a", "l"] &&
      measure (word.take (word_length - 6)) > 0 then
    word.take (word_length - 2)
  else if endsWith word ["e", "n", "c", "i"] &&
      measure (word.take (word_length - 4)) > 0 then
    word.set (word_length - 1) "e"
  else if endsWith word ["a", "n", "c", "i"] &&
      measure (word.take (word_length - 4)) > 0 then
    word.set (word_length - 1) "e"
  else if endsWith word ["i", "z", "e", "r"] &&
      measure (word.take (word_length - 4)) > 0 then
    word.take (word_length - 1)
  else if endsWith word ["a", "b", "l", "i"] &&
      measure (word.take (word_length - 4)) > 0 then
    word.set (word_length - 1) "e"
  else if endsWith word ["a", "l", "l", "i"] &&
      measure (word.take (word_length - 4)) > 0 then
    word.take (word_length - 2)
  else if endsWith word ["e", "n", "t", "l", "i"] &&
      measure (word.take (word_length - 5)) > 0 then
    word.take (word_length - 2)
  else if endsWith word ["e", "l", "i"] &&
      measure (word.take (word_length - 3)) > 0 then
    word.take (word_length - 2)
  else if endsWith word ["o", "u", "s", "l", "i"] &&
      measure (word.take (word_length - 5)) > 0 then
    word.take (word_length - 2)
  else if endsWith word ["i", "z", "a", "t", "i", "o", "n"] &&
      measure (word.take (word_length - 7)) > 0 then
    word.take (word_length - 5) ++ ["e"]
  else if endsWith word ["a", "t", "i", "o", "n"] &&
      measure (word.take (word_length - 5)) > 0 then
    word.take (word_length - 3) ++ ["e"]
  else if endsWith word ["a", "t", "o", "r"] &&
      measure (word.take (word_length - 4)) > 0 then
    word.take (word_length - 2) ++ ["e"]
  else if endsWith word ["a", "l", "i", "s", "m"] &&
      measure (word.take (word_length - 5)) > 0 then
    word.take (word_length - 3)
  else if endsWith word ["i", "v", "e", "n", "e", "s", "s"] &&
      measure (word.take (word_length - 7)) > 0 then
    word.take (word_length - 4)
  else if endsWith word ["f", "u", "l", "n", "e", "s", "s"] &&
      measure (word.take (word_length - 7)) > 0 then
    word.take (word_length - 4)
  else if endsWith word ["o", "u", "s", "n", "e", "s", "s"] &&
      measure (word.take (word_length - 7)) > 0 then
    word.take (word_length - 4)
  else if endsWith word ["a", "l", "i", "t", "i"] &&
      measure (word.take (word_length - 5)) > 0 then
    word.take (word_length - 3)
  else if endsWith word ["i", "v", "i", "t", "i"] &&
      measure (word.take (word_length - 5)) > 0 then
    word.take (word_length - 3) ++ ["e"]
  else if endsWith word ["b", "i", "l", "i", "t", "i"] &&
      measure (word.take (word_length - 6)) > 0 then
    word.take (word_length - 5) ++ ["l"] ++ ["e"]
  else
    word

/-- Rust `phase_three`: the 7-entry table guarded by positive stem
measure. -/
def phase_three (word : List String) : List String :=
  let word_length := word.length
  if endsWith word ["i", "c", "a", "t", "e"] &&
      measure (word.take (word_length - 5)) > 0 then
    word.take (word_length - 3)
  else if endsWith word ["a", "t", "i", "v", "e"] &&
      measure (word.take (word_length - 5)) > 0 then
    word.take (word_length - 5)
  else if endsWith word ["a", "l", "i", "z", "e"] &&
      measure (word.take (word_length - 5)) > 0 then
    word.take (word_length - 3)
  else if endsWith word ["i", "c", "i", "t", "i"] &&
      measure (word.take (word_length - 5)) > 0 then
    word.take (word_length - 3)
  else if endsWith word ["i", "c", "a", "l"] &&
      measure (word.take (word_length - 4)) > 0 then
    word.take (word_length - 2)
  else if endsWith word ["f", "u", "l"] &&
      measure (word.take (word_length - 3)) > 0 then
    word.take (word_length - 3)
  else if endsWith word ["n", "e", "s", "s"] &&
      measure (word.take (word_length - 4)) > 0 then
    word.take (word_length - 4)
  else
    word

/-- Rust `phase_four`: the 18-entry table guarded by stem measure above 1;
the "ion" rule additionally requires the grapheme before the suffix to be
"s" or "t". -/
def phase_four (word : List String) : List String :=
  let word_length := word.length
  if endsWith word ["a", "l"] &&
      measure (word.take (word_length - 2)) > 1 then
    word.take (word_length - 2)
  else if endsWith word ["a", "n", "c", "e"] &&
      measure (word.take (word_length - 4)) > 1 then
    word.take (word_length - 4)
  else if endsWith word ["e", "n", "c", "e"] &&
      measure (word.take (word_length - 4)) > 1 then
    word.take (word_length - 4)
  else if endsWith word ["e", "r"] &&
      measure (word.take (word_length - 2)) > 1 then
    word.take (word_length - 2)
  else if endsWith word ["i", "c"] &&
      measure (word.take (word_length - 2)) > 1 then
    word.take (word_length - 2)
  else if endsWith word ["a", "b", "l", "e"] &&
      measure (word.take (word_length - 4)) > 1 then
    word.take (word_length - 4)
  else if endsWith word ["i", "b", "l", "e"] &&
      measure (word.take (word_length - 4)) > 1 then
    word.take (word_length - 4)
  else if endsWith word ["a", "n", "t"] &&
      measure (word.take (word_length - 3)) > 1 then
    word.take (word_length - 3)
  else if endsWith word ["e", "m", "e", "n", "t"] &&
      measure (word.take (word_length - 5)) > 1 then
    word.take (word_length - 5)
  else if endsWith word ["m", "e", "n", "t"] &&
      measure (word.take (word_length - 4)) > 1 then
    word.take (word_length - 4)
  else if endsWith word ["e", "n", "t"] &&
      measure (word.take (word_length - 3)) > 1 then
    word.take (word_length - 3)
  else if endsWith word ["i", "o", "n"] &&
      measure (word.take (word_length - 3)) > 1 then
    let last_grapheme_in_stem := word.getD (word_length - 4) ""
    if last_grapheme_in_stem == "s" || last_grapheme_in_stem == "t" then
      word.take (word_length - 3)
    else
      word
  else if endsWith word ["o", "u"] &&
      measure (word.take (word_length - 2)) > 1 then
    word.take (word_length - 2)
  else if endsWith word ["i", "s", "m"] &&
      measure (word.take (word_length - 3)) > 1 then
    word.take (word_length - 3)
  else if endsWith word ["a", "t", "e"] &&
      measure (word.take (word_length - 3)) > 1 then
    word.take (word_length - 3)
  else if endsWith word ["i", "t", "i"] &&
      measure (word.take (word_length - 3)) > 1 then
    word.take (word_length - 3)
  else if endsWith word ["o", "u", "s"] &&
      measure (word.take (word_length - 3)) > 1 then
    word.take (word_length - 3)
  else if endsWith word ["i", "v", "e"] &&
      measure (word.take (word_length - 3)) > 1 then
    word.take (word_length - 3)
  else if endsWith word ["i", "z", "e"] &&
      measure (word.take (word_length - 3)) > 1 then
    word.take (word_length - 3)
  else
    word

/-- Rust `phase_5a`: a final "e" is dropped when the stem before it has
measure above 1, or measure exactly 1 without the *o pattern. -/
def phase_5a (word : List String) : List String :=
  let word_length := word.length
  if endsWith word ["e"] &&
      measure (word.take (word_length - 1)) > 1 then
    word.take (word_length - 1)
  else if endsWith word ["e"] &&
      measure (word.take (word_length - 1)) == 1 &&
      !ends_star_o (word.take (word_length - 1)) then
    word.take (word_length - 1)
  else
    word

/-- Rust `phase_5b`: a final "l" is dropped when the whole word has
measure above 1 and ends in a doubled Porter consonant. -/
def phase_5b (word : List String) : List String :=
  let word_length := word.length
  if endsWith word ["l"] && measure word > 1 &&
      ends_double_porters_consonant word then
    word.take (word_length - 1)
  else
    word

/-- Rust `stem_tokenized`: the driver; words of length at most 2 pass
through unchanged, longer words run the phase cascade in order. -/
def stem_tokenized (word : List String) : List String :=
  if word.length > 2 then
    phase_5b (phase_5a (phase_four (phase_three (phase_two (phase_one_c
      (phase_one_b (phase_one_a word)))))))
  else
    word

/-- Grapheme tokenization of the example inputs.  The Rust `stem` wrapper
delegates to the external `unicode_segmentation` collaborator; on the
ASCII example words of the specification every character is its own
extended grapheme cluster, so tokenization is the per-character split. -/
def tokenize (s : String) : List String :=
  s.toList.map (fun c => String.mk [c])

/-- Rust `stem`: tokenize, run the cascade, and left-fold the resulting
graphemes back into a string, mirroring the source's fold with string
formatting. -/
def stem (word : String) : String :=
  (stem_tokenized (tokenize word)).foldl (fun prev next => prev ++ next) ""

/-! ### Helper lemmas -/

theorem endsWith_length {word suffix : List String}
    (h : endsWith word suffix = true) : suffix.length ≤ word.length := by
  unfold endsWith at h
  exact (List.isSuffixOf_iff_suffix.mp h).length_le

theorem endsWith_and_length {word suffix : List String} {b : Bool}
    (h : (endsWith word suffix && b) = true) :
    suffix.length ≤ word.length := by
  rw [Bool.and_eq_true] at h
  exact endsWith_length h.1

theorem endsWith_eed_ed {word : List String}
    (h : endsWith word ["e", "e", "d"] = true) :
    endsWith word ["e", "d"] = true := by
  unfold endsWith at h ⊢
  rw [List.isSuffixOf_iff_suffix] at h ⊢
  exact List.IsSuffix.trans ⟨["e"], rfl⟩ h

theorem foldl_measureStep_snd_le (word : List String) (l : List Nat)
    (st : Bool × Nat) :
    (l.foldl (measureStep word) st).2 ≤ st.2 + l.length := by
  induction l generalizing st with
  | nil => simp
  | cons a t ih =>
    have h1 : (measureStep word st a).2 ≤ st.2 + 1 := by
      unfold measureStep
      dsimp only
      split
      · exact Nat.le_succ _
      · split
        · exact Nat.le_refl _
        · exact Nat.le_succ _
    calc (List.foldl (measureStep word) st (a :: t)).2
        = (List.foldl (measureStep word) (measureStep word st a) t).2 := by
          rw [List.foldl_cons]
      _ ≤ (measureStep word st a).2 + t.length := ih _
      _ ≤ st.2 + 1 + t.length := by omega
      _ = st.2 + (a :: t).length := by simp [List.length_cons]; omega

theorem measure_le (word : List String) : measure word ≤ word.length - 1 := by
  unfold measure
  split
  · omega
  · have h := foldl_measureStep_snd_le word (List.range' 1 (word.length - 1))
      (real_vowel (word.getD 0 ""), 0)
    simp only [List.length_range'] at h
    omega

theorem measure_eq_zero_of_short {word : List String}
    (h : word.length ≤ 1) : measure word = 0 := by
  unfold measure
  split
  · rfl
  · rename_i h0
    have h1 : word.length - 1 = 0 := by omega
    rw [h1]
    rfl

theorem ite_length_le {c : Prop} [Decidable c] {a b : List String}
    {n : Nat} (ha : c → a.length ≤ n) (hb : ¬c → b.length ≤ n) :
    (if c then a else b).length ≤ n := by
  by_cases h : c
  · rw [if_pos h]
    exact ha h
  · rw [if_neg h]
    exact hb h

theorem phase_one_a_length_le (word : List String) :
    (phase_one_a word).length ≤ word.length := by
  unfold phase_one_a
  dsimp only
  repeat' refine ite_length_le (fun h => ?_) (fun h => ?_)
  all_goals
    first
    | exact Nat.le_refl _
    | (rw [List.length_take]; omega)

theorem phase_one_b_substep_length_le (word : List String) :
    (phase_one_b_substep word).length ≤ word.length + 1 := by
  unfold phase_one_b_substep
  dsimp only
  repeat' refine ite_length_le (fun h => ?_) (fun h => ?_)
  all_goals
    first
    | exact Nat.le_succ _
    | (rw [List.length_take]; omega)
    | (simp only [List.length_append, List.length_take,
         List.length_cons, List.length_nil]
       omega)

theorem phase_one_b_length_le (word : List String) :
    (phase_one_b word).length ≤ word.length := by
  unfold phase_one_b
  dsimp only
  refine ite_length_le (fun h1 => ?_) (fun h1 => ?_)
  · refine ite_length_le (fun h2 => ?_) (fun h2 => ?_)
    · rw [List.length_take]
      omega
    · exact Nat.le_refl _
  · refine ite_length_le (fun h2 => ?_) (fun h2 => ?_)
    · refine ite_length_le (fun h3 => ?_) (fun h3 => ?_)
      · have h2l := endsWith_length h2
        simp only [List.length_cons, List.length_nil] at h2l
        have hsub := phase_one_b_substep_length_le
          (word.take (word.length - 2))
        simp only [List.length_take] at hsub
        omega
      · exact Nat.le_refl _
    · refine ite_length_le (fun h3 => ?_) (fun h3 => ?_)
      · refine ite_length_le (fun h4 => ?_) (fun h4 => ?_)
        · have h3l := endsWith_length h3
          simp only [List.length_cons, List.length_nil] at h3l
          have hsub := phase_one_b_substep_length_le
            (word.take (word.length - 3))
          simp only [List.length_take] at hsub
          omega
        · exact Nat.le_refl _
      · exact Nat.le_refl _

theorem phase_one_c_length_le (word : List String) :
    (phase_one_c word).length ≤ word.length := by
  unfold phase_one_c
  dsimp only
  refine ite_length_le (fun h => ?_) (fun h => ?_)
  · rw [List.length_set]
  · exact Nat.le_refl _

theorem phase_two_length_le (word : List String) :
    (phase_two word).length ≤ word.length := by
  unfold phase_two
  dsimp only
  repeat' refine ite_length_le (fun h => ?_) (fun h => ?_)
  all_goals
    first
    | exact Nat.le_refl _
    | (rw [List.length_take]; omega)
    | (rw [List.length_set]; try exact Nat.le_refl _)
    | (have hl := endsWith_and_length h
       simp only [List.length_cons, List.length_nil] at hl
       simp only [List.length_append, List.length_take,
         List.length_cons, List.length_nil]
       omega)

theorem phase_three_length_le (word : List String) :
    (phase_three word).length ≤ word.length := by
  unfold phase_three
  dsimp only
  repeat' refine ite_length_le (fun h => ?_) (fun h => ?_)
  all_goals
    first
    | exact Nat.le_refl _
    | (rw [List.length_take]; omega)

theorem phase_four_length_le (word : List String) :
    (phase_four word).length ≤ word.length := by
  unfold phase_four
  dsimp only
  repeat' refine ite_length_le (fun h => ?_) (fun h => ?_)
  all_goals
    first
    | exact Nat.le_refl _
    | (rw [List.length_take]; omega)

theorem phase_5a_length_le (word : List String) :
    (phase_5a word).length ≤ word.length := by
  unfold phase_5a
  dsimp only
  repeat' refine ite_length_le (fun h => ?_) (fun h => ?_)
  all_goals
    first
    | exact Nat.le_refl _
    | (rw [List.length_take]; omega)

theorem phase_5b_length_le (word : List String) :
    (phase_5b word).length ≤ word.length := by
  unfold phase_5b
  dsimp only
  repeat' refine ite_length_le (fun h => ?_) (fun h => ?_)
  all_goals
    first
    | exact Nat.le_refl _
    | (rw [List.length_take]; omega)

/-- C10: the whole-pipeline output is never longer than the input: for
every grapheme sequence `w`, `(stem_tokenized w).length ≤ w.length` — the
only appending substep (1b-prime) runs only after phase 1b has dropped at
least two graphemes, so no reachable phase composition yields a net
increase. -/
theorem stem_tokenized_length_le (word : List String) :
    (stem_tokenized word).length ≤ word.length := by
  unfold stem_tokenized
  refine ite_length_le (fun h => ?_) (fun h => Nat.le_refl _)
  calc (phase_5b (phase_5a (phase_four (phase_three (phase_two
        (phase_one_c (phase_one_b (phase_one_a word)))))))).length
      ≤ (phase_5a (phase_four (phase_three (phase_two (phase_one_c
          (phase_one_b (phase_one_a word))))))).length :=
        phase_5b_length_le _
    _ ≤ (phase_four (phase_three (phase_two (phase_one_c (phase_one_b
          (phase_one_a word)))))).length := phase_5a_length_le _
    _ ≤ (phase_three (phase_two (phase_one_c (phase_one_b
          (phase_one_a word))))).length := phase_four_length_le _
    _ ≤ (phase_two (phase_one_c (phase_one_b
          (phase_one_a word)))).length := phase_three_length_le _
    _ ≤ (phase_one_c (phase_one_b (phase_one_a word))).length :=
        phase_two_length_le _
    _ ≤ (phase_one_b (phase_one_a word)).length := phase_one_c_length_le _
    _ ≤ (phase_one_a word).length := phase_one_b_length_le _
    _ ≤ word.length := phase_one_a_length_le _

/-! ### Claim theorems -/

/-- C1 counterexample: the full cascade does not map "agreed" to "agree";
phase 5a removes the final "e" of the phase-1b output "agree" because the
stem "agre" has measure 1 and does not satisfy the *o pattern. -/
theorem stem_agreed_ne_agree : ¬ (stem "agreed" = "agree") := by
  decide

/-- C1 (amended): the full cascade maps "agreed" to "agre" — phase 1b
rewrites "eed" to "ee", and phase 5a then drops the final "e". -/
theorem stem_agreed_eq_agre : stem "agreed" = "agre" := by
  decide

/-- C2 counterexample: the full cascade does not map "relational" to
"relate"; phase 5a drops the final "e" of the phase-2 output "relate"
because the stem "relat" has measure 2. -/
theorem stem_relational_ne_relate : ¬ (stem "relational" = "relate") := by
  decide

/-- C2 (amended): the full cascade maps "relational" to "relat" — phase 2
rewrites "ational" to "ate", and phase 5a then drops the final "e". -/
theorem stem_relational_eq_relat : stem "relational" = "relat" := by
  decide

/-- C3: phase 1c replaces the final grapheme with "i" for every word that
ends in "y" and whose whole word satisfies `contains_porter_vowel`; in
particular `phase_one_c ["s", "k", "y"] = ["s", "k", "i"]`, since the
final "y" itself classifies as a Porter vowel after the consonant "k". -/
theorem phase_one_c_y_to_i :
    (∀ w : List String, contains_porter_vowel w = true →
      endsWith w ["y"] = true →
      phase_one_c w = w.set (w.length - 1) "i") ∧
    phase_one_c ["s", "k", "y"] = ["s", "k", "i"] := by
  constructor
  · intro w h1 h2
    unfold phase_one_c
    dsimp only
    rw [if_pos (by rw [h1, h2]; rfl : (contains_porter_vowel w &&
      endsWith w ["y"]) = true)]
  · decide

/-- C3 witness: the general rule evaluated at "happy". -/
theorem phase_one_c_y_to_i_witness :
    phase_one_c ["h", "a", "p", "p", "y"] =
      List.set ["h", "a", "p", "p", "y"]
        ((["h", "a", "p", "p", "y"] : List String).length - 1) "i" :=
  phase_one_c_y_to_i.1 ["h", "a", "p", "p", "y"] (by decide) (by decide)

/-- C4: the concrete measure values — 0 on the empty sequence, 2 for
"bacon", 3 for "abacus", 4 for "crepuscular", and 2 for "syzygy" (the
seed at position 0 uses `real_vowel`, later positions use
`porter_vowel`). -/
theorem measure_examples :
    measure ([] : List String) = 0 ∧
    measure (tokenize "bacon") = 2 ∧
    measure (tokenize "abacus") = 3 ∧
    measure (tokenize "crepuscular") = 4 ∧
    measure (tokenize "syzygy") = 2 := by
  refine ⟨rfl, ?_, ?_, ?_, ?_⟩ <;> decide

/-- C5: boundary safety — the doubled-consonant and *o predicates return
false on sequences of length at most 2 instead of reading out of bounds,
measure of a too-short sequence is 0, and the phase-4 "ion" rule's read
at index `len - 4` is in bounds (the length is at least 4) whenever its
guard `measure (stem) > 1` holds. -/
theorem boundary_safety :
    (∀ w : List String, w.length ≤ 2 →
      ends_double_porters_consonant w = false ∧ ends_star_o w = false) ∧
    (∀ w : List String, w.length ≤ 1 → measure w = 0) ∧
    (∀ w : List String, endsWith w ["i", "o", "n"] = true →
      1 < measure (w.take (w.length - 3)) → 4 ≤ w.length) := by
  refine ⟨?_, ?_, ?_⟩
  · intro w h
    constructor
    · unfold ends_double_porters_consonant
      dsimp only
      rw [if_neg (by omega)]
    · unfold ends_star_o
      dsimp only
      rw [if_neg (by omega)]
  · intro w h
    exact measure_eq_zero_of_short h
  · intro w hion hm
    have hlen := endsWith_length hion
    simp only [List.length_cons, List.length_nil] at hlen
    have hle := measure_le (w.take (w.length - 3))
    rw [List.length_take] at hle
    omega

/-- C5 witness: the boundary-safety contract evaluated at concrete
sequences. -/
theorem boundary_safety_witness :
    (ends_double_porters_consonant ["l", "l"] = false ∧
      ends_star_o ["l", "l"] = false) ∧
    measure ["a"] = 0 ∧
    4 ≤ (["a", "b", "a", "b", "i", "o", "n"] : List String).length :=
  ⟨boundary_safety.1 ["l", "l"] (by decide),
   boundary_safety.2.1 ["a"] (by decide),
   boundary_safety.2.2 ["a", "b", "a", "b", "i", "o", "n"]
     (by decide) (by decide)⟩

/-- C7: short-input identity — every grapheme sequence of length at most
2 passes through `stem_tokenized` completely unchanged. -/
theorem stem_tokenized_short_identity (w : List String)
    (h : w.length ≤ 2) : stem_tokenized w = w := by
  unfold stem_tokenized
  rw [if_neg (by omega)]

/-- C7 witness: the identity evaluated at a length-2 sequence. -/
theorem stem_tokenized_short_identity_witness :
    stem_tokenized ["a", "b"] = ["a", "b"] :=
  stem_tokenized_short_identity ["a", "b"] (by decide)

/-- C8: the remaining end-to-end examples — "caresses" to "caress",
"motoring" to "motor", "triplicate" to "triplic", "surveillance" to
"surveil", and "controll" to "control". -/
theorem stem_examples :
    stem "caresses" = "caress" ∧
    stem "motoring" = "motor" ∧
    stem "triplicate" = "triplic" ∧
    stem "surveillance" = "surveil" ∧
    stem "controll" = "control" := by
  refine ⟨?_, ?_, ?_, ?_, ?_⟩ <;> decide

/-- C9: per-phase length invariant — each phase returns a sequence at
most one grapheme longer than its input, and every phase other than 1b
(and its substep, the only appending step) never returns a longer
sequence than it received. -/
theorem phase_length_invariant (w : List String) :
    (phase_one_a w).length ≤ w.length ∧
    (phase_one_b w).length ≤ w.length + 1 ∧
    (phase_one_b_substep w).length ≤ w.length + 1 ∧
    (phase_one_c w).length ≤ w.length ∧
    (phase_two w).length ≤ w.length ∧
    (phase_three w).length ≤ w.length ∧
    (phase_four w).length ≤ w.length ∧
    (phase_5a w).length ≤ w.length ∧
    (phase_5b w).length ≤ w.length :=
  ⟨phase_one_a_length_le w, Nat.le_succ_of_le (phase_one_b_length_le w),
   phase_one_b_substep_length_le w, phase_one_c_length_le w,
   phase_two_length_le w, phase_three_length_le w, phase_four_length_le w,
   phase_5a_length_le w, phase_5b_length_le w⟩

/-- C6: phase 1b behaves as specified for every word — a word ending
"eed" drops the "d" iff the stem before "eed" has positive measure; a
word ending "ed" (respectively "ing"), checked after "eed", drops that
suffix iff the remaining stem contains a Porter vowel and then runs the
1b-prime substep; otherwise the word is unchanged.  The substep appends
"e" after at/bl/iz, else drops the final grapheme of a doubled Porter
consonant ending not in l/s/z, else appends "e" when the measure is 1
and the *o pattern holds, else leaves the word unchanged. -/
theorem phase_one_b_spec_cases (w : List String) :
    (endsWith w ["e", "e", "d"] = true →
      phase_one_b w =
        if measure (w.take (w.length - 3)) > 0 then w.take (w.length - 1)
        else w) ∧
    (endsWith w ["e", "e", "d"] = false → endsWith w ["e", "d"] = true →
      phase_one_b w =
        if contains_porter_vowel (w.take (w.length - 2)) then
          phase_one_b_substep (w.take (w.length - 2))
        else w) ∧
    (endsWith w ["e", "d"] = false → endsWith w ["i", "n", "g"] = true →
      phase_one_b w =
        if contains_porter_vowel (w.take (w.length - 3)) then
          phase_one_b_substep (w.take (w.length - 3))
        else w) ∧
    (endsWith w ["e", "d"] = false → endsWith w ["i", "n", "g"] = false →
      phase_one_b w = w) ∧
    ((endsWith w ["a", "t"] || endsWith w ["b", "l"] ||
        endsWith w ["i", "z"]) = true →
      phase_one_b_substep w = w ++ ["e"]) ∧
    ((endsWith w ["a", "t"] || endsWith w ["b", "l"] ||
        endsWith w ["i", "z"]) = false →
      (ends_double_porters_consonant w &&
        !(endsWith w ["l"] || endsWith w ["s"] || endsWith w ["z"])) = true →
      phase_one_b_substep w = w.take (w.length - 1)) ∧
    ((endsWith w ["a", "t"] || endsWith w ["b", "l"] ||
        endsWith w ["i", "z"]) = false →
      (ends_double_porters_consonant w &&
        !(endsWith w ["l"] || endsWith w ["s"] || endsWith w ["z"])) = false →
      (measure w == 1 && ends_star_o w) = true →
      phase_one_b_substep w = w ++ ["e"]) ∧
    ((endsWith w ["a", "t"] || endsWith w ["b", "l"] ||
        endsWith w ["i", "z"]) = false →
      (ends_double_porters_consonant w &&
        !(endsWith w ["l"] || endsWith w ["s"] || endsWith w ["z"])) = false →
      (measure w == 1 && ends_star_o w) = false →
      phase_one_b_substep w = w) := by
  refine ⟨?_, ?_, ?_, ?_, ?_, ?_, ?_, ?_⟩
  · intro h1
    unfold phase_one_b
    dsimp only
    rw [if_pos h1]
  · intro h1 h2
    unfold phase_one_b
    dsimp only
    rw [if_neg (by rw [h1]; exact Bool.false_ne_true), if_pos h2]
  · intro h1 h2
    have h0 : endsWith w ["e", "e", "d"] = false := by
      cases hb : endsWith w ["e", "e", "d"]
      · rfl
      · rw [endsWith_eed_ed hb] at h1
        simp at h1
    unfold phase_one_b
    dsimp only
    rw [if_neg (by rw [h0]; exact Bool.false_ne_true),
      if_neg (by rw [h1]; exact Bool.false_ne_true), if_pos h2]
  · intro h1 h2
    have h0 : endsWith w ["e", "e", "d"] = false := by
      cases hb : endsWith w ["e", "e", "d"]
      · rfl
      · rw [endsWith_eed_ed hb] at h1
        simp at h1
    unfold phase_one_b
    dsimp only
    rw [if_neg (by rw [h0]; exact Bool.false_ne_true),
      if_neg (by rw [h1]; exact Bool.false_ne_true),
      if_neg (by rw [h2]; exact Bool.false_ne_true)]
  · intro h1
    unfold phase_one_b_substep
    dsimp only
    rw [if_pos h1]
  · intro h1 h2
    unfold phase_one_b_substep
    dsimp only
    rw [if_neg (by rw [h1]; exact Bool.false_ne_true), if_pos h2]
  · intro h1 h2 h3
    unfold phase_one_b_substep
    dsimp only
    rw [if_neg (by rw [h1]; exact Bool.false_ne_true),
      if_neg (by rw [h2]; exact Bool.false_ne_true), if_pos h3]
  · intro h1 h2 h3
    unfold phase_one_b_substep
    dsimp only
    rw [if_neg (by rw [h1]; exact Bool.false_ne_true),
      if_neg (by rw [h2]; exact Bool.false_ne_true),
      if_neg (by rw [h3]; exact Bool.false_ne_true)]

/-- C6 witness: the eed and ing branches of the phase-1b specification
evaluated on "agreed" and "motoring". -/
theorem phase_one_b_spec_cases_witness :
    phase_one_b ["a", "g", "r", "e", "e", "d"] = ["a", "g", "r", "e", "e"] ∧
    phase_one_b ["m", "o", "t", "o", "r", "i", "n", "g"] =
      ["m", "o", "t", "o", "r"] := by
  constructor
  · have h := (phase_one_b_spec_cases
      ["a", "g", "r", "e", "e", "d"]).1 (by decide)
    rw [h]
    decide
  · have h := (phase_one_b_spec_cases
      ["m", "o", "t", "o", "r", "i", "n", "g"]).2.2.1 (by decide) (by decide)
    rw [h]
    decide

end Porter
